import Mathlib

/-!
Verification development for the message-interceptor bot.

This file gives a shallow embedding of the routing and administration core of
the bot (src/bot.py, src/admin.py, src/database.py) and proves the spec's
claims about it.

Modelling conventions:
* Python strings are Lean `String`s; character classes (`\w`, `\s`, `str.lower`,
  `int(...)`) are modelled at the ASCII level, which covers every literal the
  code and spec exercise.
* The PostgreSQL store is modelled as in-memory lists of rows (`DbState`); the
  `UNIQUE` constraints of the schema are modelled as the exact string-equality
  checks the engine performs under the default (case-sensitive) collation.
* `async` handlers become pure functions from their inputs (current store,
  message text, failure oracles for infrastructure errors) to a result
  (new store, next conversation state, trace of observable events).
* A raised Python exception is modelled as a `some errorMessage` outcome.
-/

/-! ### Python string primitives -/

/-- ASCII model of Python `\s` (`str.strip` and regex whitespace). -/
def isPyWs (c : Char) : Bool :=
  c = ' ' || c = '\t' || c = '\n' || c = '\r' || c = '\x0b' || c = '\x0c'

/-- `str.strip()` on a character list: drop whitespace from both ends. -/
def pyStripL (l : List Char) : List Char :=
  ((l.dropWhile isPyWs).reverse.dropWhile isPyWs).reverse

/-- Python `str.strip()`. -/
def pyStrip (s : String) : String := String.mk (pyStripL s.data)

/-- ASCII model of Python `str.lower()`. -/
def pyLower (l : List Char) : List Char := l.map Char.toLower

/-- ASCII model of the regex class `\w`: letters, digits and underscore. -/
def isWordChar (c : Char) : Bool := c.isAlphanum || c = '_'

/-- Python `text.count(c)` for a single character. -/
def countChar (c : Char) (l : List Char) : Nat := (l.filter (· = c)).length

/-- Python `str.lstrip('/')`. -/
def lstripSlash (l : List Char) : List Char := l.dropWhile (· = '/')

/-- First field of a colon-separated input: `text.split(':')[0]`. -/
def firstField (l : List Char) : List Char := l.takeWhile (· ≠ ':')

/-- What remains after the first colon of a colon-separated input. -/
def afterColon (l : List Char) : List Char := (l.dropWhile (· ≠ ':')).drop 1

/-- Third field of `text.split(':', 2)` when the text holds two colons. -/
def thirdField (l : List Char) : List Char := afterColon (afterColon l)

/-- Code-point lexicographic comparison of character lists — the order Python
uses to compare `str` values (and hence the order of `sorted`). -/
def charListLt : List Char → List Char → Bool
  | [], [] => false
  | [], _ :: _ => true
  | _ :: _, [] => false
  | a :: as, b :: bs => if a < b then true else if b < a then false else charListLt as bs

/-- `a ≤ b` in Python's string order, as a computable test. -/
def pyStrLe (a b : String) : Bool := !(charListLt b.data a.data)

/-- Insert a string into an already `pyStrLe`-sorted list, keeping it sorted. -/
def orderedInsertStr (a : String) : List String → List String
  | [] => [a]
  | b :: l => if pyStrLe a b then a :: b :: l else b :: orderedInsertStr a l

/-- Model of Python `sorted` on a list of (distinct) strings: insertion sort in
code-point lexicographic order. -/
def pySorted (l : List String) : List String := l.foldr orderedInsertStr []

/-- Digits of a Python integer literal after the first digit: single
underscores are allowed between digits. -/
def pyIntDigitsRest : List Char → Bool
  | [] => true
  | '_' :: rest =>
    match rest with
    | [] => false
    | c :: rest2 => c.isDigit && pyIntDigitsRest rest2
  | c :: rest => c.isDigit && pyIntDigitsRest rest

/-- A nonempty digit run acceptable to Python `int(...)` (ASCII digits,
optional single underscores between digits). -/
def pyIntDigitsOk : List Char → Bool
  | [] => false
  | c :: cs => c.isDigit && pyIntDigitsRest cs

/-- Numeric value of an accepted digit run (underscores are skipped). -/
def pyIntVal (l : List Char) : Nat :=
  l.foldl (fun acc c => if c = '_' then acc else acc * 10 + (c.toNat - '0'.toNat)) 0

/-- ASCII model of Python `int(str)`: strip whitespace, optional sign, then a
digit run; any other input raises `ValueError`, modelled as `none`. -/
def pyInt (s : String) : Option Int :=
  match pyStripL s.data with
  | '+' :: ds => if pyIntDigitsOk ds then some (Int.ofNat (pyIntVal ds)) else none
  | '-' :: ds => if pyIntDigitsOk ds then some (-(Int.ofNat (pyIntVal ds))) else none
  | ds => if pyIntDigitsOk ds then some (Int.ofNat (pyIntVal ds)) else none

/-! ### Python dict model

Python dicts preserve insertion order; assigning to an existing key replaces
its value in place. -/

/-- `d[k] = v` for an insertion-ordered dict represented as an assoc list. -/
def pyDictInsert (d : List (String × α)) (k : String) (v : α) : List (String × α) :=
  if d.any (fun p => p.1 == k) then
    d.map (fun p => if p.1 == k then (k, v) else p)
  else d ++ [(k, v)]

/-- `dict.keys()` in insertion order. -/
def dictKeys (d : List (String × α)) : List String := d.map (fun p => p.1)

/-! ### The regex `^/(\w+)\s*(.*)$` of `bot.handle_message`

`$` matches at the end of the string or just before a final newline; `.` does
not match a newline; `\s*` is greedy with per-character backtracking. -/

/-- `(.*)$` from a fixed start position: the greedy non-newline run, accepted
when it is followed by nothing or by a single final newline. -/
def tailEndsOk (l : List Char) : Option (List Char) :=
  let m := l.takeWhile (· ≠ '\n')
  let e := l.drop m.length
  if e = [] ∨ e = ['\n'] then some m else none

/-- `\s*(.*)$` on `r`, with the fuel counting how many whitespace characters
`\s*` still may consume: try the longest whitespace run first, backtrack one
character at a time. -/
def matchTailGo (r : List Char) : Nat → Option (List Char)
  | 0 => tailEndsOk r
  | k + 1 =>
    match tailEndsOk (r.drop (k + 1)) with
    | some m => some m
    | none => matchTailGo r k

/-- Length of the maximal whitespace run at the head of `l`. -/
def wsLen (l : List Char) : Nat := (l.takeWhile isPyWs).length

/-- `re.match(r'^/(\w+)\s*(.*)$', text)`: returns the two capture groups.
`\w+` is matched greedily; shortening it can never rescue the tail (a freed
word character is neither whitespace-skippable into a new `$` position nor a
newline), so the maximal run is the regex's answer. -/
def reMatchAux : List Char → Option (List Char × List Char)
  | [] => none
  | c :: rest =>
    if c = '/' then
      if rest.takeWhile isWordChar = [] then none
      else
        match matchTailGo (rest.dropWhile isWordChar) (wsLen (rest.dropWhile isWordChar)) with
        | some m => some (rest.takeWhile isWordChar, m)
        | none => none
    else none

/-- Python `text.startswith('/')`. -/
def pyStartsSlash : List Char → Bool
  | [] => false
  | c :: _ => c = '/'

/-- The shape named by the spec: `'/'` followed by at least one word
character. -/
def claimShape : List Char → Bool
  | '/' :: c :: _ => isWordChar c
  | _ => false

/-! ### Python `str.format` (the subset used by the sender template) -/

/-- One pass over the format string replacing `\x7bfield\x7d` by its value; the
fuel (initially the string length) only guarantees termination. Unknown fields
are kept verbatim; the seeded templates only use known fields. -/
def pyFormatGo (env : List (String × String)) : Nat → List Char → List Char
  | 0, l => l
  | _ + 1, [] => []
  | fuel + 1, '{' :: rest =>
    let key := rest.takeWhile (· ≠ '}')
    let rest2 := (rest.dropWhile (· ≠ '}')).drop 1
    ((List.lookup (String.mk key) env).getD (String.mk ('{' :: key ++ ['}']))).data
      ++ pyFormatGo env fuel rest2
  | fuel + 1, c :: rest => c :: pyFormatGo env fuel rest

/-- `fmt.format(**env)` for the sender-info template. -/
def pyFormat (fmt : String) (env : List (String × String)) : String :=
  String.mk (pyFormatGo env fmt.data.length fmt.data)

/-! ### Data model: messages and the routing cache (the module globals of
`bot.py`) -/

/-- The sender of a Telegram message (`message.from_user`). -/
structure TgUser where
  full_name : String
  username : Option String
  id : Int
deriving DecidableEq

/-- An inbound Telegram message, restricted to the fields `handle_message`
reads.  `text = none` models a message without text. -/
structure Message where
  text : Option String
  chat_id : Int
  from_user : Option TgUser
deriving DecidableEq

/-- The module-level routing cache of `bot.py` (`TOPIC_ROUTING`, `TOPIC_NAMES`,
`SOURCE_CHATS`, `TARGET_CHAT_ID`, `INCLUDE_SENDER_INFO`, `SENDER_FORMAT`).
`DEFAULT_TOPIC_ID` is the constant `None` and is inlined where used. -/
structure Cache where
  TOPIC_ROUTING : List (String × Int)
  TOPIC_NAMES : List (String × String)
  SOURCE_CHATS : List String
  TARGET_CHAT_ID : Option String
  INCLUDE_SENDER_INFO : Bool
  SENDER_FORMAT : String
deriving DecidableEq

/-- The routing decision `handle_message` arrives at; the actual network sends
are the external collaborator invoked with these data. -/
inductive RouteDecision
  | Ignore
  | Reject (replyText : String)
  | Forward (chat_id : Option String) (message_thread_id : Option Int) (text : String)
deriving DecidableEq

/-- The unknown-topic reply of `handle_message`: every known key of
`TOPIC_ROUTING`, sorted, each shown with its `TOPIC_NAMES` entry when the name
dict is nonempty, else as a bare comma-separated list. -/
def rejectText (c : Cache) : String :=
  if c.TOPIC_NAMES ≠ [] then
    "Такой темы нет, список доступных:\n" ++
      String.intercalate "\n"
        ((pySorted (dictKeys c.TOPIC_ROUTING)).map
          (fun p => "/" ++ p ++ " → " ++ (List.lookup p c.TOPIC_NAMES).getD p))
  else
    "Такой темы нет, список доступных: " ++
      String.intercalate ", "
        ((pySorted (dictKeys c.TOPIC_ROUTING)).map (fun p => "/" ++ p))

/-- The part of `handle_message` after the regex matched, given the lowercased
captured token and the stripped remainder. -/
def routeMatched (c : Cache) (fromUser : Option TgUser) (pfx content : String) :
    RouteDecision :=
  if (List.lookup pfx c.TOPIC_ROUTING).isSome = false then
    RouteDecision.Reject (rejectText c)
  else
    let topic_id := List.lookup pfx c.TOPIC_ROUTING
    let sender_name :=
      match fromUser with
      | none => "Неизвестный"
      | some u => if u.full_name = "" then "Неизвестный" else u.full_name
    let sender_username : Option String :=
      match fromUser with
      | none => none
      | some u =>
        match u.username with
        | none => none
        | some un => if un = "" then none else some ("@" ++ un)
    let sender_id : Option Int := fromUser.map (fun u => u.id)
    let forwarded :=
      if c.INCLUDE_SENDER_INFO then
        pyFormat c.SENDER_FORMAT
          [("sender_name", sender_name),
           ("sender_username", sender_username.getD "нет username"),
           ("sender_id",
             match sender_id with
             | some i => if i = 0 then "неизвестен" else toString i
             | none => "неизвестен"),
           ("message", content)]
      else content
    RouteDecision.Forward c.TARGET_CHAT_ID topic_id forwarded

/-- `bot.handle_message` as a pure routing decision over the current cache. -/
def route (c : Cache) (m : Message) : RouteDecision :=
  match m.text with
  | none => RouteDecision.Ignore
  | some t =>
    if t = "" then RouteDecision.Ignore
    else if toString m.chat_id ∉ c.SOURCE_CHATS then RouteDecision.Ignore
    else if pyStartsSlash t.data = false then RouteDecision.Ignore
    else
      match reMatchAux t.data with
      | none => RouteDecision.Ignore
      | some (w, g2) =>
        routeMatched c m.from_user (String.mk (pyLower w)) (String.mk (pyStripL g2))

/-! ### The persisted store (`database.py` over the schema of
`migrations/0001_initial_schema.py`) -/

/-- A row of the `topics` table (timestamps omitted); `pfx` is the `prefix`
column, stored verbatim with a case-sensitive `UNIQUE` constraint. -/
structure TopicRow where
  pfx : String
  name : String
  topic_id : Int
deriving DecidableEq

/-- A row of the `source_chats` table (timestamps omitted). -/
structure SourceChatRow where
  chat_id : String
  name : Option String
  is_active : Bool
deriving DecidableEq

/-- The three tables of the store; `bot_config` keys are unique. -/
structure DbState where
  topics : List TopicRow
  source_chats : List SourceChatRow
  bot_config : List (String × String)
deriving DecidableEq

/-- Insert a topic row into a list sorted by `pfx` (SQL `ORDER BY prefix ASC`,
modelled with code-point order). -/
def orderedInsertRow (a : TopicRow) : List TopicRow → List TopicRow
  | [] => [a]
  | b :: l => if pyStrLe a.pfx b.pfx then a :: b :: l else b :: orderedInsertRow a l

/-- Sort the topic rows by `pfx`. -/
def sortTopicRows (l : List TopicRow) : List TopicRow := l.foldr orderedInsertRow []

/-- `Database.get_topics`: `SELECT prefix, topic_id ... ORDER BY prefix ASC`,
then the dict `row.prefix.lower() -> row.topic_id`. -/
def get_topics (db : DbState) : List (String × Int) :=
  (sortTopicRows db.topics).foldl
    (fun d r => pyDictInsert d (String.mk (pyLower r.pfx.data)) r.topic_id) []

/-- `Database.get_topic_names`: the dict `row.prefix.lower() -> row.name` in
table order. -/
def get_topic_names (db : DbState) : List (String × String) :=
  db.topics.foldl
    (fun d r => pyDictInsert d (String.mk (pyLower r.pfx.data)) r.name) []

/-- `Database.get_source_chats`: the chat ids of rows with `is_active = TRUE`. -/
def get_source_chats (db : DbState) : List String :=
  (db.source_chats.filter (fun r => r.is_active)).map (fun r => r.chat_id)

/-- `Database.get_all_config`: the `bot_config` rows (keys are unique). -/
def get_all_config (db : DbState) : List (String × String) := db.bot_config

/-- `Database.add_topic`: `INSERT INTO topics`; the case-sensitive `UNIQUE`
constraint on `prefix` raises `UniqueViolationError` exactly on an exact
duplicate, returned as `false`. -/
def add_topic (db : DbState) (pfx name : String) (topic_id : Int) : DbState × Bool :=
  if db.topics.any (fun r => r.pfx == pfx) then (db, false)
  else ({ db with topics := db.topics ++ [⟨pfx, name, topic_id⟩] }, true)

/-- `Database.delete_topic`: `DELETE FROM topics WHERE prefix = $1`; reported
successful iff exactly one row was deleted. -/
def delete_topic (db : DbState) (pfx : String) : DbState × Bool :=
  let n := (db.topics.filter (fun r => r.pfx == pfx)).length
  ({ db with topics := db.topics.filter (fun r => !(r.pfx == pfx)) }, n == 1)

/-- `Database.update_topic` as called by the edit wizard (both `name` and
`topic_id` given): update rows matching `prefix` exactly; successful iff
exactly one row matched. -/
def update_topic (db : DbState) (pfx name : String) (topic_id : Int) : DbState × Bool :=
  let n := (db.topics.filter (fun r => r.pfx == pfx)).length
  ({ db with
      topics := db.topics.map (fun r => if r.pfx == pfx then ⟨pfx, name, topic_id⟩ else r) },
    n == 1)

/-- `Database.add_source_chat`: insert with `is_active` defaulting to `TRUE`;
`false` on a duplicate `chat_id`. -/
def add_source_chat (db : DbState) (chat_id : String) (name : Option String) :
    DbState × Bool :=
  if db.source_chats.any (fun r => r.chat_id == chat_id) then (db, false)
  else ({ db with source_chats := db.source_chats ++ [⟨chat_id, name, true⟩] }, true)

/-- `Database.set_config`: upsert into `bot_config` (the description column is
not modelled). -/
def set_config (db : DbState) (key value : String) : DbState :=
  if db.bot_config.any (fun p => p.1 == key) then
    { db with bot_config := db.bot_config.map (fun p => if p.1 == key then (key, value) else p) }
  else { db with bot_config := db.bot_config ++ [(key, value)] }

/-! ### The cache reload (`bot.load_data_from_db`) -/

/-- Result of one awaited store fetch: the value, or the raised error. -/
inductive Fetched (α : Type)
  | ok (val : α)
  | error (msg : String)
deriving DecidableEq

/-- The four fetches `load_data_from_db` performs, each possibly failing. -/
structure Fetches where
  topicsR : Fetched (List (String × Int))
  namesR : Fetched (List (String × String))
  sourcesR : Fetched (List String)
  configR : Fetched (List (String × String))

/-- `bot.load_data_from_db`: assigns the module globals one fetch after
another, with no exception handling of its own.  The returned cache is the
state of the globals when the function returns or the exception escapes; the
`Option String` is the escaped exception. -/
def load_data_from_db (c : Cache) (f : Fetches) : Cache × Option String :=
  match f.topicsR with
  | .error e => (c, some e)
  | .ok tr =>
    let c1 := { c with TOPIC_ROUTING := tr }
    match f.namesR with
    | .error e => (c1, some e)
    | .ok tn =>
      let c2 := { c1 with TOPIC_NAMES := tn }
      match f.sourcesR with
      | .error e => (c2, some e)
      | .ok sc =>
        let c3 := { c2 with SOURCE_CHATS := sc }
        match f.configR with
        | .error e => (c3, some e)
        | .ok cfg =>
          ({ c3 with
              TARGET_CHAT_ID := List.lookup "target_chat_id" cfg,
              INCLUDE_SENDER_INFO :=
                String.mk (pyLower ((List.lookup "include_sender_info" cfg).getD "true").data)
                  == "true",
              SENDER_FORMAT := (List.lookup "sender_format" cfg).getD c.SENDER_FORMAT },
            none)

/-- The fetches of a reload in which the store answers every query. -/
def fetchesOfDb (db : DbState) : Fetches :=
  ⟨.ok (get_topics db), .ok (get_topic_names db), .ok (get_source_chats db),
    .ok (get_all_config db)⟩

/-- A fully successful reload of the cache from the store. -/
def reloadCache (db : DbState) (c : Cache) : Cache :=
  (load_data_from_db c (fetchesOfDb db)).1

/-! ### The admin conversation handlers (`admin.py`) -/

/-- The `ConversationHandler` states of `admin.py` (the `range(15)` constants
plus `ConversationHandler.END`).  `WAITING_TOPIC_PFX` and
`WAITING_TOPIC_EDIT_PFX` render the Python names whose last component is the
word for a leading token. -/
inductive AdminState
  | MAIN_MENU
  | TOPICS_MENU
  | SOURCE_CHATS_MENU
  | WAITING_TOPIC_DATA
  | WAITING_TOPIC_PFX
  | WAITING_TOPIC_EDIT_PFX
  | WAITING_TOPIC_EDIT_DATA
  | WAITING_SOURCE_CHAT_DATA
  | DELETE_SOURCE_CHAT
  | SET_TARGET_CHAT
  | END
deriving DecidableEq

/-- Observable events of one admin handler invocation, in order:
store mutation attempts, cache reloads, and replies to the administrator. -/
inductive Ev
  | dbWrite
  | reload
  | replyOk
  | replyFail
  | menu
deriving DecidableEq

/-- Result of one admin handler invocation. -/
structure HandlerResult where
  db : DbState
  state : AdminState
  trace : List Ev
deriving DecidableEq

/-- `admin.process_add_topic`.  `dbErr` is the oracle for an infrastructure
exception raised by the `add_topic` call (caught by the handler's generic
`except`). -/
def process_add_topic (db : DbState) (input : String) (dbErr : Bool) : HandlerResult :=
  let t := pyStrip input
  if ¬ t.data.any (· = ':') ∨ countChar ':' t.data ≠ 2 then
    ⟨db, .WAITING_TOPIC_DATA, [.replyFail]⟩
  else
    let p1 := firstField t.data
    let p2 := firstField (afterColon t.data)
    let p3 := thirdField t.data
    match pyInt (String.mk p3) with
    | none => ⟨db, .WAITING_TOPIC_DATA, [.replyFail]⟩
    | some tid =>
      if dbErr then ⟨db, .TOPICS_MENU, [.dbWrite, .replyFail, .menu]⟩
      else
        let r := add_topic db (pyStrip (String.mk p1)) (pyStrip (String.mk p2)) tid
        if r.2 then ⟨r.1, .TOPICS_MENU, [.dbWrite, .reload, .replyOk, .menu]⟩
        else ⟨r.1, .TOPICS_MENU, [.dbWrite, .replyFail, .menu]⟩

/-- `admin.process_delete_topic`: strip, drop leading slashes, exact delete. -/
def process_delete_topic (db : DbState) (input : String) : HandlerResult :=
  let pfx := String.mk (lstripSlash (pyStrip input).data)
  let r := delete_topic db pfx
  if r.2 then ⟨r.1, .TOPICS_MENU, [.dbWrite, .reload, .replyOk, .menu]⟩
  else ⟨r.1, .TOPICS_MENU, [.dbWrite, .replyFail, .menu]⟩

/-- `admin.process_edit_topic_data`; `pending` is
`context.user_data['edit_prefix']`. -/
def process_edit_topic_data (db : DbState) (pending : Option String) (input : String)
    (dbErr : Bool) : HandlerResult :=
  match pending with
  | none => ⟨db, .END, [.replyFail]⟩
  | some pfx =>
    let t := pyStrip input
    if ¬ t.data.any (· = ':') then ⟨db, .WAITING_TOPIC_EDIT_DATA, [.replyFail]⟩
    else
      let nm := firstField t.data
      let idStr := afterColon t.data
      match pyInt (String.mk idStr) with
      | none => ⟨db, .WAITING_TOPIC_EDIT_DATA, [.replyFail]⟩
      | some tid =>
        if dbErr then ⟨db, .TOPICS_MENU, [.dbWrite, .replyFail, .menu]⟩
        else
          let r := update_topic db pfx (pyStrip (String.mk nm)) tid
          if r.2 then ⟨r.1, .TOPICS_MENU, [.dbWrite, .reload, .replyOk, .menu]⟩
          else ⟨r.1, .TOPICS_MENU, [.dbWrite, .replyFail, .menu]⟩

/-- `admin.process_add_source_chat`. -/
def process_add_source_chat (db : DbState) (input : String) (dbErr : Bool) : HandlerResult :=
  let t := pyStrip input
  if ¬ t.data.any (· = ':') then ⟨db, .WAITING_SOURCE_CHAT_DATA, [.replyFail]⟩
  else
    let cid := firstField t.data
    let nm := afterColon t.data
    if dbErr then ⟨db, .SOURCE_CHATS_MENU, [.dbWrite, .replyFail, .menu]⟩
    else
      let r := add_source_chat db (pyStrip (String.mk cid)) (some (pyStrip (String.mk nm)))
      if r.2 then ⟨r.1, .SOURCE_CHATS_MENU, [.dbWrite, .reload, .replyOk, .menu]⟩
      else ⟨r.1, .SOURCE_CHATS_MENU, [.dbWrite, .replyFail, .menu]⟩

/-- `admin.process_delete_source_chat`: raw `DELETE FROM source_chats WHERE
chat_id = $1`, success iff exactly one row went away. -/
def process_delete_source_chat (db : DbState) (input : String) : HandlerResult :=
  let cid := pyStrip input
  let n := (db.source_chats.filter (fun r => r.chat_id == cid)).length
  let db' := { db with source_chats := db.source_chats.filter (fun r => !(r.chat_id == cid)) }
  if n == 1 then ⟨db', .SOURCE_CHATS_MENU, [.dbWrite, .reload, .replyOk, .menu]⟩
  else ⟨db', .SOURCE_CHATS_MENU, [.dbWrite, .replyFail, .menu]⟩

/-- `admin.process_set_target_chat`: upsert of `target_chat_id`, always a
success unless the store call raises. -/
def process_set_target_chat (db : DbState) (input : String) (dbErr : Bool) : HandlerResult :=
  let cid := pyStrip input
  if dbErr then ⟨db, .MAIN_MENU, [.dbWrite, .replyFail, .menu]⟩
  else
    ⟨set_config db "target_chat_id" cid, .MAIN_MENU, [.dbWrite, .reload, .replyOk, .menu]⟩

/-! ### The debug toggle (`admin.toggle_debug_mode`) -/

/-- The process-wide debug state: the `DEBUG_MODE` flag and the contents of
`DEBUG_FILE_PATH` when that file exists. -/
structure DebugState where
  DEBUG_MODE : Bool
  sink : Option String
deriving DecidableEq

/-- Observable events of one debug-toggle invocation. -/
inductive DebugEv
  | sendDocument (contents : String)
  | fileRemoved
  | replyOffSent
  | replyOffErr
  | replyOffNoFile
  | replyOn
deriving DecidableEq

/-- `admin.toggle_debug_mode`.  `sendOk` is the oracle for the
`send_document` transport call; `now` is the wall-clock timestamp used in the
fresh log header. -/
def toggle_debug_mode (st : DebugState) (sendOk : Bool) (now : String) :
    DebugState × List DebugEv :=
  if st.DEBUG_MODE then
    match st.sink with
    | some contents =>
      if sendOk then
        (⟨false, none⟩, [.sendDocument contents, .fileRemoved, .replyOffSent])
      else
        (⟨false, some contents⟩, [.replyOffErr])
    | none => (⟨false, none⟩, [.replyOffNoFile])
  else
    (⟨true, some ("DEBUG LOG - Started at " ++ now ++ "\n")⟩, [.replyOn])

/-! ### Concrete fixtures used by the witnesses and counterexamples -/

/-- The snapshot of spec scenario 3: topics `sea -> 300`, `sky -> 289` with
names `Sea` and `Sky`, one whitelisted source chat. -/
def cacheSeaSky : Cache :=
  { TOPIC_ROUTING := [("sea", 300), ("sky", 289)]
    TOPIC_NAMES := [("sea", "Sea"), ("sky", "Sky")]
    SOURCE_CHATS := ["-100"]
    TARGET_CHAT_ID := some "-200"
    INCLUDE_SENDER_INFO := true
    SENDER_FORMAT := "{message}\nОтправил: {sender_name} ({sender_username})" }

/-- A message with an unknown leading token from the whitelisted chat. -/
def msgXyz : Message := { text := some "/xyz hi", chat_id := -100, from_user := none }

/-- A pre-reload cache with recognisably old routing fields. -/
def cacheOld : Cache :=
  { TOPIC_ROUTING := [("old", 1)]
    TOPIC_NAMES := [("old", "Old")]
    SOURCE_CHATS := ["-1"]
    TARGET_CHAT_ID := some "-2"
    INCLUDE_SENDER_INFO := true
    SENDER_FORMAT := "{message}" }

/-- A store holding the single topic `sea`. -/
def dbSea : DbState :=
  { topics := [⟨"sea", "Sea", 300⟩], source_chats := [], bot_config := [] }

/-- A store whose single source chat is deactivated. -/
def dbInactive : DbState :=
  { topics := [], source_chats := [⟨"-100", some "Main", false⟩], bot_config := [] }

/-- A store holding the single topic `Sky`, stored with an uppercase letter. -/
def dbSkyUpper : DbState :=
  { topics := [⟨"Sky", "Sky name", 289⟩], source_chats := [], bot_config := [] }

/-! ### Trace predicates -/

/-- A trace in which a success confirmation is only ever sent after a reload,
and a reload happens only when a success confirmation follows. -/
def okAfterReload (tr : List Ev) : Prop :=
  (Ev.replyOk ∈ tr → ∃ l₁ l₂, tr = l₁ ++ Ev.reload :: l₂ ∧ Ev.replyOk ∈ l₂) ∧
  (Ev.replyOk ∉ tr → Ev.reload ∉ tr)

/-! ## Helper lemmas -/

theorem charListLt_iff : ∀ l₁ l₂ : List Char, charListLt l₁ l₂ = true ↔ List.Lex (· < ·) l₁ l₂ := by
  intro l₁
  induction l₁ with
  | nil =>
    intro l₂
    cases l₂ with
    | nil =>
      simp only [charListLt, Bool.false_eq_true, false_iff]
      intro h; cases h
    | cons b bs =>
      simp only [charListLt, true_iff]
      exact List.Lex.nil
  | cons a as ih =>
    intro l₂
    cases l₂ with
    | nil =>
      simp only [charListLt, Bool.false_eq_true, false_iff]
      intro h; cases h
    | cons b bs =>
      simp only [charListLt]
      by_cases hab : a < b
      · simp only [hab, if_true, true_iff]
        exact List.Lex.rel hab
      · by_cases hba : b < a
        · simp only [hab, hba, if_true, if_false, Bool.false_eq_true, false_iff]
          intro h
          cases h with
          | cons h' => exact absurd hba (lt_irrefl a)
          | rel h' => exact absurd hba (asymm h')
        · have hab' : a = b := le_antisymm (not_lt.mp hba) (not_lt.mp hab)
          subst hab'
          simp only [hab, if_false, lt_irrefl, ih bs]
          constructor
          · intro h; exact List.Lex.cons h
          · intro h
            cases h with
            | cons h' => exact h'
            | rel h' => exact absurd h' (lt_irrefl a)

theorem pyStrLe_iff (a b : String) : pyStrLe a b = true ↔ a ≤ b := by
  rw [pyStrLe, Bool.not_eq_true', ← not_lt, String.lt_iff_toList_lt]
  have h : (b.toList < a.toList) ↔ charListLt b.data a.data = true :=
    (charListLt_iff b.data a.data).symm
  rw [h]
  cases hc : charListLt b.data a.data <;> simp

theorem orderedInsertStr_perm (a : String) :
    ∀ l : List String, List.Perm (orderedInsertStr a l) (a :: l) := by
  intro l
  induction l with
  | nil => exact List.Perm.refl _
  | cons b l ih =>
    by_cases h : pyStrLe a b = true
    · simp only [orderedInsertStr, h, if_true]
      exact List.Perm.refl _
    · simp only [orderedInsertStr, h, if_false]
      exact List.Perm.trans (List.Perm.cons b ih) (List.Perm.swap a b l)

theorem pySorted_perm : ∀ l : List String, List.Perm (pySorted l) l := by
  intro l
  induction l with
  | nil => exact List.Perm.refl _
  | cons a l ih =>
    have h1 : List.Perm (orderedInsertStr a (pySorted l)) (a :: pySorted l) :=
      orderedInsertStr_perm a (pySorted l)
    exact List.Perm.trans h1 (List.Perm.cons a ih)

theorem mem_orderedInsertStr {x a : String} {l : List String}
    (h : x ∈ orderedInsertStr a l) : x = a ∨ x ∈ l := by
  have := (orderedInsertStr_perm a l).mem_iff.mp h
  simpa using this

theorem orderedInsertStr_sorted (a : String) :
    ∀ l : List String, l.Sorted (fun x y : String => x ≤ y) →
      (orderedInsertStr a l).Sorted (fun x y : String => x ≤ y) := by
  intro l
  induction l with
  | nil =>
    intro _
    simp [orderedInsertStr]
  | cons b l ih =>
    intro h
    rw [List.sorted_cons] at h
    by_cases hab : pyStrLe a b = true
    · simp only [orderedInsertStr, hab, if_true]
      rw [List.sorted_cons]
      constructor
      · intro x hx
        rcases List.mem_cons.mp hx with hx | hx
        · exact hx ▸ (pyStrLe_iff a b).mp hab
        · exact le_trans ((pyStrLe_iff a b).mp hab) (h.1 x hx)
      · rw [List.sorted_cons]
        exact h
    · simp only [orderedInsertStr, hab, Bool.false_eq_true, if_false]
      rw [List.sorted_cons]
      constructor
      · intro x hx
        rcases mem_orderedInsertStr hx with hx | hx
        · subst hx
          exact le_of_not_le (fun hle => hab ((pyStrLe_iff x b).mpr hle))
        · exact h.1 x hx
      · exact ih h.2

theorem pySorted_sorted : ∀ l : List String, (pySorted l).Sorted (fun x y : String => x ≤ y) := by
  intro l
  induction l with
  | nil => simp [pySorted]
  | cons a l ih => exact orderedInsertStr_sorted a (pySorted l) ih

theorem filter_eq_self_of_none {α : Type} (p : α → Bool) :
    ∀ l : List α, (∀ x ∈ l, p x = true) → l.filter p = l := by
  intro l h
  exact List.filter_eq_self.mpr h

theorem map_eq_self_of_fix {α : Type} (f : α → α) :
    ∀ l : List α, (∀ x ∈ l, f x = x) → l.map f = l := by
  intro l
  induction l with
  | nil => intro _; rfl
  | cons a l ih =>
    intro h
    simp only [List.map_cons]
    rw [h a (List.mem_cons_self a l), ih (fun x hx => h x (List.mem_cons_of_mem a hx))]

theorem okAfterReload_reprompt : okAfterReload [Ev.replyFail] := by
  constructor
  · intro h
    simp at h
  · intro _ h
    simp at h

theorem okAfterReload_fail : okAfterReload [Ev.dbWrite, Ev.replyFail, Ev.menu] := by
  constructor
  · intro h
    simp at h
  · intro _ h
    simp at h

theorem okAfterReload_success : okAfterReload [Ev.dbWrite, Ev.reload, Ev.replyOk, Ev.menu] := by
  constructor
  · intro _
    exact ⟨[Ev.dbWrite], [Ev.replyOk, Ev.menu], rfl, by simp⟩
  · intro h
    exact absurd (by simp) h

theorem addTopic_okAfterReload (db : DbState) (input : String) (dbErr : Bool) :
    okAfterReload (process_add_topic db input dbErr).trace := by
  unfold process_add_topic
  dsimp only
  split
  · exact okAfterReload_reprompt
  · split
    · exact okAfterReload_reprompt
    · split
      · exact okAfterReload_fail
      · split
        · exact okAfterReload_success
        · exact okAfterReload_fail

theorem deleteTopic_okAfterReload (db : DbState) (input : String) :
    okAfterReload (process_delete_topic db input).trace := by
  unfold process_delete_topic
  dsimp only
  split
  · exact okAfterReload_success
  · exact okAfterReload_fail

theorem editTopic_okAfterReload (db : DbState) (pending : Option String) (input : String)
    (dbErr : Bool) : okAfterReload (process_edit_topic_data db pending input dbErr).trace := by
  unfold process_edit_topic_data
  split
  · exact okAfterReload_reprompt
  · dsimp only
    split
    · exact okAfterReload_reprompt
    · split
      · exact okAfterReload_reprompt
      · split
        · exact okAfterReload_fail
        · split
          · exact okAfterReload_success
          · exact okAfterReload_fail

theorem addSourceChat_okAfterReload (db : DbState) (input : String) (dbErr : Bool) :
    okAfterReload (process_add_source_chat db input dbErr).trace := by
  unfold process_add_source_chat
  dsimp only
  split
  · exact okAfterReload_reprompt
  · split
    · exact okAfterReload_fail
    · split
      · exact okAfterReload_success
      · exact okAfterReload_fail

theorem deleteSourceChat_okAfterReload (db : DbState) (input : String) :
    okAfterReload (process_delete_source_chat db input).trace := by
  unfold process_delete_source_chat
  dsimp only
  split
  · exact okAfterReload_success
  · exact okAfterReload_fail

theorem setTargetChat_okAfterReload (db : DbState) (input : String) (dbErr : Bool) :
    okAfterReload (process_set_target_chat db input dbErr).trace := by
  unfold process_set_target_chat
  dsimp only
  split
  · exact okAfterReload_fail
  · exact okAfterReload_success

/-- C3: every successful mutation performed by an admin wizard step reloads the
routing cache before the success confirmation is sent, and a failed mutation
(validation failure, conflict, not-found, or a raised store error) never
triggers a reload.  Stated for all six mutating handlers over every possible
store, input and infrastructure-failure oracle. -/
theorem reload_precedes_success_confirmation :
    (∀ db input dbErr, okAfterReload (process_add_topic db input dbErr).trace) ∧
    (∀ db input, okAfterReload (process_delete_topic db input).trace) ∧
    (∀ db pending input dbErr,
      okAfterReload (process_edit_topic_data db pending input dbErr).trace) ∧
    (∀ db input dbErr, okAfterReload (process_add_source_chat db input dbErr).trace) ∧
    (∀ db input, okAfterReload (process_delete_source_chat db input).trace) ∧
    (∀ db input dbErr, okAfterReload (process_set_target_chat db input dbErr).trace) :=
  ⟨addTopic_okAfterReload, deleteTopic_okAfterReload, editTopic_okAfterReload,
    addSourceChat_okAfterReload, deleteSourceChat_okAfterReload, setTargetChat_okAfterReload⟩

/-- C3 witness: the reload-before-confirmation property evaluated on a
concrete successful add, a concrete conflicting add, and a concrete
target-chat update. -/
theorem reload_precedes_success_confirmation_witness :
    okAfterReload (process_add_topic dbSea "sky:Sky:289" false).trace ∧
    okAfterReload (process_add_topic dbSea "sea:Other:1" false).trace ∧
    okAfterReload (process_set_target_chat dbSea "-200" false).trace :=
  ⟨reload_precedes_success_confirmation.1 dbSea "sky:Sky:289" false,
    reload_precedes_success_confirmation.1 dbSea "sea:Other:1" false,
    reload_precedes_success_confirmation.2.2.2.2.2 dbSea "-200" false⟩

theorem any_colon_of_count {l : List Char} (h : countChar ':' l = 2) :
    l.any (· = ':') = true := by
  by_contra hn
  rw [Bool.not_eq_true, List.any_eq_false] at hn
  have hfil : l.filter (· = ':') = [] := by
    rw [List.filter_eq_nil_iff]
    intro a ha
    exact hn a ha
  rw [countChar, hfil] at h
  simp at h

theorem addTopic_guard_passes {db : DbState} {input : String} {dbErr : Bool}
    (h : countChar ':' (pyStrip input).data = 2) :
    process_add_topic db input dbErr =
      (match pyInt (String.mk (thirdField (pyStrip input).data)) with
       | none => ⟨db, .WAITING_TOPIC_DATA, [.replyFail]⟩
       | some tid =>
         if dbErr then ⟨db, .TOPICS_MENU, [.dbWrite, .replyFail, .menu]⟩
         else
           let r := add_topic db (pyStrip (String.mk (firstField (pyStrip input).data)))
             (pyStrip (String.mk (firstField (afterColon (pyStrip input).data)))) tid
           if r.2 then ⟨r.1, .TOPICS_MENU, [.dbWrite, .reload, .replyOk, .menu]⟩
           else ⟨r.1, .TOPICS_MENU, [.dbWrite, .replyFail, .menu]⟩) := by
  unfold process_add_topic
  dsimp only
  rw [if_neg]
  intro hor
  rcases hor with hor | hor
  · exact hor (by simp [any_colon_of_count h])
  · exact hor h

/-- C5: in the `AddTopic` waiting state, an input without exactly two colons,
or whose third field is not an integer, re-prompts in the same waiting state
without touching the store; a well-formed input whose (stripped) first field
collides with a stored prefix reports the conflict and returns to the topics
menu with the store unchanged. -/
theorem add_topic_wizard_validation :
    (∀ db input dbErr, countChar ':' (pyStrip input).data ≠ 2 →
      process_add_topic db input dbErr =
        ⟨db, AdminState.WAITING_TOPIC_DATA, [Ev.replyFail]⟩ ∧
      Ev.dbWrite ∉ (process_add_topic db input dbErr).trace) ∧
    (∀ db input dbErr, countChar ':' (pyStrip input).data = 2 →
      pyInt (String.mk (thirdField (pyStrip input).data)) = none →
      process_add_topic db input dbErr =
        ⟨db, AdminState.WAITING_TOPIC_DATA, [Ev.replyFail]⟩ ∧
      Ev.dbWrite ∉ (process_add_topic db input dbErr).trace) ∧
    (∀ db input n, countChar ':' (pyStrip input).data = 2 →
      pyInt (String.mk (thirdField (pyStrip input).data)) = some n →
      (∃ row ∈ db.topics,
        row.pfx = pyStrip (String.mk (firstField (pyStrip input).data))) →
      process_add_topic db input false =
        ⟨db, AdminState.TOPICS_MENU, [Ev.dbWrite, Ev.replyFail, Ev.menu]⟩) := by
  refine ⟨?_, ?_, ?_⟩
  · intro db input dbErr h
    have heq : process_add_topic db input dbErr =
        ⟨db, AdminState.WAITING_TOPIC_DATA, [Ev.replyFail]⟩ := by
      unfold process_add_topic
      dsimp only
      rw [if_pos (Or.inr h)]
    refine ⟨heq, ?_⟩
    rw [heq]
    simp
  · intro db input dbErr h h2
    have heq : process_add_topic db input dbErr =
        ⟨db, AdminState.WAITING_TOPIC_DATA, [Ev.replyFail]⟩ := by
      rw [addTopic_guard_passes h, h2]
    refine ⟨heq, ?_⟩
    rw [heq]
    simp
  · intro db input n h h2 hdup
    rw [addTopic_guard_passes h, h2]
    have hany : db.topics.any
        (fun r => r.pfx == pyStrip (String.mk (firstField (pyStrip input).data))) = true := by
      rw [List.any_eq_true]
      rcases hdup with ⟨row, hmem, hpfx⟩
      exact ⟨row, hmem, by simp [hpfx]⟩
    have hadd : add_topic db (pyStrip (String.mk (firstField (pyStrip input).data)))
        (pyStrip (String.mk (firstField (afterColon (pyStrip input).data)))) n = (db, false) := by
      unfold add_topic
      rw [if_pos hany]
    simp only [Bool.false_eq_true, if_false, hadd]

/-- C5 witness: a one-colon input and a non-integer id re-prompt without a
store call; a duplicate prefix is reported and the wizard lands on the topics
menu. -/
theorem add_topic_wizard_validation_witness :
    (process_add_topic dbSea "a:b" false =
      ⟨dbSea, AdminState.WAITING_TOPIC_DATA, [Ev.replyFail]⟩ ∧
      Ev.dbWrite ∉ (process_add_topic dbSea "a:b" false).trace) ∧
    (process_add_topic dbSea "a:b:xyz" false =
      ⟨dbSea, AdminState.WAITING_TOPIC_DATA, [Ev.replyFail]⟩ ∧
      Ev.dbWrite ∉ (process_add_topic dbSea "a:b:xyz" false).trace) ∧
    process_add_topic dbSea "sea:Other:1" false =
      ⟨dbSea, AdminState.TOPICS_MENU, [Ev.dbWrite, Ev.replyFail, Ev.menu]⟩ :=
  ⟨add_topic_wizard_validation.1 dbSea "a:b" false (by decide),
    add_topic_wizard_validation.2.1 dbSea "a:b:xyz" false (by decide) (by decide),
    add_topic_wizard_validation.2.2 dbSea "sea:Other:1" 1 (by decide) (by decide)
      ⟨⟨"sea", "Sea", 300⟩, by decide, by decide⟩⟩

theorem deleteSourceChat_notFound (db : DbState) (input : String)
    (h : ∀ r ∈ db.source_chats, r.chat_id ≠ pyStrip input) :
    process_delete_source_chat db input =
      ⟨db, AdminState.SOURCE_CHATS_MENU, [Ev.dbWrite, Ev.replyFail, Ev.menu]⟩ := by
  unfold process_delete_source_chat
  dsimp only
  have hfil : db.source_chats.filter (fun r => !(r.chat_id == pyStrip input)) =
      db.source_chats := by
    apply filter_eq_self_of_none
    intro r hr
    simp [h r hr]
  have hcnt : db.source_chats.filter (fun r => r.chat_id == pyStrip input) = [] := by
    rw [List.filter_eq_nil_iff]
    intro r hr
    simp [h r hr]
  rw [hfil, hcnt]
  simp

/-- C7: deleting a source-chat id absent from the store reports not-found,
leaves the stored set of source chats unchanged (same list, hence same
cardinality and membership), and lands back on the source-chats menu; a second
delete of the same id right after a first one always reports not-found and
changes nothing. -/
theorem delete_source_chat_not_found :
    (∀ db input, (∀ r ∈ db.source_chats, r.chat_id ≠ pyStrip input) →
      process_delete_source_chat db input =
        ⟨db, AdminState.SOURCE_CHATS_MENU, [Ev.dbWrite, Ev.replyFail, Ev.menu]⟩) ∧
    (∀ db input,
      process_delete_source_chat (process_delete_source_chat db input).db input =
        ⟨(process_delete_source_chat db input).db, AdminState.SOURCE_CHATS_MENU,
          [Ev.dbWrite, Ev.replyFail, Ev.menu]⟩) := by
  constructor
  · exact deleteSourceChat_notFound
  · intro db input
    have hdb : (process_delete_source_chat db input).db =
        { db with source_chats :=
            db.source_chats.filter (fun r => !(r.chat_id == pyStrip input)) } := by
      unfold process_delete_source_chat
      dsimp only
      split <;> rfl
    apply deleteSourceChat_notFound
    intro r hr
    rw [hdb] at hr
    simp only [List.mem_filter] at hr
    have := hr.2
    simp only [Bool.not_eq_true', beq_eq_false_iff_ne] at this
    exact this

/-- C7 witness: deleting an absent id, and deleting the same id twice, on a
concrete store. -/
theorem delete_source_chat_not_found_witness :
    process_delete_source_chat dbInactive "-999" =
      ⟨dbInactive, AdminState.SOURCE_CHATS_MENU, [Ev.dbWrite, Ev.replyFail, Ev.menu]⟩ ∧
    process_delete_source_chat (process_delete_source_chat dbInactive "-100").db "-100" =
      ⟨(process_delete_source_chat dbInactive "-100").db, AdminState.SOURCE_CHATS_MENU,
        [Ev.dbWrite, Ev.replyFail, Ev.menu]⟩ :=
  ⟨delete_source_chat_not_found.1 dbInactive "-999" (by decide),
    delete_source_chat_not_found.2 dbInactive "-100"⟩

/-- C6: the debug toggle always flips the process-wide flag — two consecutive
invocations, from any starting state and under any transport/clock behaviour,
produce two different resulting flag values — and the invocation that turns
debugging off (with the sink present and the transport delivering) sends the
sink's contents to the administrator and deletes the sink file. -/
theorem debug_toggle_flips_and_flushes :
    ∀ (st : DebugState) (sendOk : Bool) (now : String) (sendOk₂ : Bool) (now₂ : String),
      (toggle_debug_mode st sendOk now).1.DEBUG_MODE = !st.DEBUG_MODE ∧
      (toggle_debug_mode (toggle_debug_mode st sendOk now).1 sendOk₂ now₂).1.DEBUG_MODE ≠
        (toggle_debug_mode st sendOk now).1.DEBUG_MODE ∧
      (st.DEBUG_MODE = true → ∀ contents, st.sink = some contents → sendOk = true →
        DebugEv.sendDocument contents ∈ (toggle_debug_mode st sendOk now).2 ∧
        (toggle_debug_mode st sendOk now).1.sink = none) := by
  intro st sendOk now sendOk₂ now₂
  obtain ⟨flag, sink⟩ := st
  cases flag <;> cases sink <;> cases sendOk <;> cases sendOk₂ <;>
    simp_all [toggle_debug_mode]

/-- C6 witness: from the on-state with a populated sink, the toggle turns
debugging off, ships the contents and deletes the sink; flipping is visible at
the concrete states. -/
theorem debug_toggle_flips_and_flushes_witness :
    (toggle_debug_mode ⟨true, some "log"⟩ true "t1").1.DEBUG_MODE = !true ∧
    (toggle_debug_mode (toggle_debug_mode ⟨true, some "log"⟩ true "t1").1 true "t2").1.DEBUG_MODE ≠
      (toggle_debug_mode ⟨true, some "log"⟩ true "t1").1.DEBUG_MODE ∧
    (DebugEv.sendDocument "log" ∈ (toggle_debug_mode ⟨true, some "log"⟩ true "t1").2 ∧
      (toggle_debug_mode ⟨true, some "log"⟩ true "t1").1.sink = none) := by
  obtain ⟨h1, h2, h3⟩ := debug_toggle_flips_and_flushes ⟨true, some "log"⟩ true "t1" true "t2"
  exact ⟨h1, h2, h3 rfl "log" rfl rfl⟩

/-- C1 counterexample: a reload whose topics fetch succeeds but whose
topic-names fetch fails leaves the cache with the new topic map and the old
source whitelist — a mix of pre-reload and post-reload routing fields — so the
claim that every cached routing field keeps its pre-reload value whenever any
fetch fails is false of the code. -/
theorem reload_not_atomic_counterexample :
    (load_data_from_db cacheOld
        ⟨.ok [("new", 2)], .error "db down", .ok [], .ok []⟩).2 = some "db down" ∧
    (load_data_from_db cacheOld
        ⟨.ok [("new", 2)], .error "db down", .ok [], .ok []⟩).1.TOPIC_ROUTING ≠
      cacheOld.TOPIC_ROUTING ∧
    (load_data_from_db cacheOld
        ⟨.ok [("new", 2)], .error "db down", .ok [], .ok []⟩).1.SOURCE_CHATS =
      cacheOld.SOURCE_CHATS := by
  refine ⟨rfl, ?_, rfl⟩
  decide

/-- C1 as amended: the reload is transactional only with respect to its first
fetch — if the topics fetch fails the whole cache keeps its pre-reload value
and the error propagates to the caller; once a fetch has succeeded its fields
are assigned immediately, so a failure of the following fetch leaves the new
topic map installed next to the old name map, source whitelist and
configuration (the error still propagating). -/
theorem reload_first_fetch_atomic :
    (∀ (c : Cache) (f : Fetches) (e : String), f.topicsR = .error e →
      load_data_from_db c f = (c, some e)) ∧
    (∀ (c : Cache) (f : Fetches) (tr : List (String × Int)) (e : String),
      f.topicsR = .ok tr → f.namesR = .error e →
      load_data_from_db c f = ({ c with TOPIC_ROUTING := tr }, some e)) := by
  constructor
  · intro c f e h
    unfold load_data_from_db
    rw [h]
  · intro c f tr e h1 h2
    unfold load_data_from_db
    rw [h1, h2]

/-- C1 witness: both halves of the amended statement at concrete fetches. -/
theorem reload_first_fetch_atomic_witness :
    load_data_from_db cacheOld ⟨.error "down", .ok [], .ok [], .ok []⟩ =
      (cacheOld, some "down") ∧
    load_data_from_db cacheOld ⟨.ok [("new", 2)], .error "down", .ok [], .ok []⟩ =
      ({ cacheOld with TOPIC_ROUTING := [("new", 2)] }, some "down") :=
  ⟨reload_first_fetch_atomic.1 cacheOld ⟨.error "down", .ok [], .ok [], .ok []⟩ "down" rfl,
    reload_first_fetch_atomic.2 cacheOld ⟨.ok [("new", 2)], .error "down", .ok [], .ok []⟩
      [("new", 2)] "down" rfl rfl⟩

/-- C2 counterexample: with topic `sea` stored, adding a topic whose prefix
`SEA` equals it up to letter case succeeds and mutates the store instead of
returning the conflict outcome the claim requires — the `UNIQUE` constraint
compares prefixes case-sensitively. -/
theorem add_topic_case_insensitive_uniqueness_counterexample :
    String.mk (pyLower "SEA".data) = String.mk (pyLower "sea".data) ∧
    (add_topic dbSea "SEA" "Other" 1).2 = true ∧
    (add_topic dbSea "SEA" "Other" 1).1 ≠ dbSea := by
  refine ⟨rfl, rfl, ?_⟩
  decide

/-- C2 as amended: topic-prefix uniqueness is enforced on the exact stored
string — an insert whose prefix is byte-for-byte equal to a stored prefix
fails and leaves the store (hence the stored topic's name and destination)
unchanged, while an insert whose prefix differs from every stored prefix,
even one equal to a stored prefix up to letter case, succeeds. -/
theorem add_topic_exact_uniqueness :
    (∀ (db : DbState) (pfx name : String) (tid : Int) (row : TopicRow),
      row ∈ db.topics → row.pfx = pfx →
      add_topic db pfx name tid = (db, false)) ∧
    (∀ (db : DbState) (pfx name : String) (tid : Int),
      (∀ row ∈ db.topics, row.pfx ≠ pfx) →
      (add_topic db pfx name tid).2 = true) := by
  constructor
  · intro db pfx name tid row hmem hpfx
    unfold add_topic
    rw [if_pos]
    rw [List.any_eq_true]
    exact ⟨row, hmem, by simp [hpfx]⟩
  · intro db pfx name tid h
    unfold add_topic
    have hn : ¬ (db.topics.any fun r => r.pfx == pfx) = true := by
      rw [List.any_eq_true]
      rintro ⟨row, hmem, hbeq⟩
      exact h row hmem (by simpa using hbeq)
    rw [if_neg hn]

/-- C2 amended witness: an exact duplicate of `sea` fails and leaves the store
unchanged; the case variant `SEA` is accepted. -/
theorem add_topic_exact_uniqueness_witness :
    add_topic dbSea "sea" "Other" 1 = (dbSea, false) ∧
    (add_topic dbSea "SEA" "Other" 1).2 = true :=
  ⟨add_topic_exact_uniqueness.1 dbSea "sea" "Other" 1 ⟨"sea", "Sea", 300⟩ (by decide) rfl,
    add_topic_exact_uniqueness.2 dbSea "SEA" "Other" 1 (by decide)⟩

theorem mkSlash_ne_empty (l : List Char) : String.mk ('/' :: l) ≠ "" := by
  intro h
  have h2 := congrArg String.data h
  simp at h2

theorem route_ignore_of_not_source (c : Cache) (m : Message)
    (h : toString m.chat_id ∉ c.SOURCE_CHATS) : route c m = RouteDecision.Ignore := by
  unfold route
  cases htext : m.text with
  | none => rfl
  | some t =>
    by_cases ht : t = ""
    · simp [ht]
    · simp [ht, h]

theorem takeWhile_append_word (p : Char → Bool) :
    ∀ (w r : List Char), (∀ ch ∈ w, p ch = true) →
      (∀ ch, r.head? = some ch → p ch = false) →
      (w ++ r).takeWhile p = w ∧ (w ++ r).dropWhile p = r := by
  intro w
  induction w with
  | nil =>
    intro r _ hr
    constructor
    · cases r with
      | nil => rfl
      | cons c r' => simp [List.takeWhile_cons, hr c rfl]
    · cases r with
      | nil => rfl
      | cons c r' => simp [List.dropWhile_cons, hr c rfl]
  | cons a w' ih =>
    intro r hw hr
    have ha : p a = true := hw a (List.mem_cons_self a w')
    have hw' : ∀ ch ∈ w', p ch = true := fun ch hch => hw ch (List.mem_cons_of_mem a hch)
    obtain ⟨h1, h2⟩ := ih r hw' hr
    constructor
    · simp [List.takeWhile_cons, ha, h1]
    · simp [List.dropWhile_cons, ha, h2]

theorem reMatchAux_token (w r : List Char) (hne : w ≠ [])
    (hw : ∀ ch ∈ w, isWordChar ch = true)
    (hr : ∀ ch, r.head? = some ch → isWordChar ch = false) :
    reMatchAux ('/' :: (w ++ r)) =
      match matchTailGo r (wsLen r) with
      | some m => some (w, m)
      | none => none := by
  obtain ⟨htake, hdrop⟩ := takeWhile_append_word isWordChar w r hw hr
  simp only [reMatchAux, if_true]
  rw [htake, hdrop, if_neg hne]

theorem reMatchAux_some_shape {l : List Char} {p : List Char × List Char}
    (h : reMatchAux l = some p) : pyStartsSlash l = true := by
  cases l with
  | nil => simp [reMatchAux] at h
  | cons c rest =>
    by_cases hc : c = '/'
    · simp [pyStartsSlash, hc]
    · simp [reMatchAux, hc] at h

/-- C8: routing ignores — with no reject, no forward and no side effect —
every message that carries no text (or empty text), every message whose
originating channel id is not in the active-source set, every message whose
text is not `'/'` followed by a word character, and every message from a
source chat stored with `active = false` (such a chat is excluded from the
reloaded whitelist). -/
theorem routing_ignores_out_of_scope_messages :
    (∀ (c : Cache) (m : Message), m.text = none → route c m = RouteDecision.Ignore) ∧
    (∀ (c : Cache) (m : Message), m.text = some "" → route c m = RouteDecision.Ignore) ∧
    (∀ (c : Cache) (m : Message), toString m.chat_id ∉ c.SOURCE_CHATS →
      route c m = RouteDecision.Ignore) ∧
    (∀ (c : Cache) (m : Message) (t : String), m.text = some t →
      claimShape t.data = false → route c m = RouteDecision.Ignore) ∧
    (∀ (db : DbState) (c : Cache) (m : Message) (cid : String) (nm : Option String),
      (⟨cid, nm, false⟩ : SourceChatRow) ∈ db.source_chats →
      (∀ r ∈ db.source_chats, r.chat_id = cid → r.is_active = false) →
      toString m.chat_id = cid →
      route (reloadCache db c) m = RouteDecision.Ignore) := by
  refine ⟨?_, ?_, route_ignore_of_not_source, ?_, ?_⟩
  · intro c m h
    simp [route, h]
  · intro c m h
    simp [route, h]
  · intro c m t htext hshape
    unfold route
    cases hmt : m.text with
    | none => rfl
    | some t' =>
      rw [hmt] at htext
      injection htext with htext
      rw [← htext] at hshape
      dsimp only
      by_cases ht : t' = ""
      · simp [ht]
      · rw [if_neg ht]
        by_cases hc : toString m.chat_id ∉ c.SOURCE_CHATS
        · rw [if_pos hc]
        · rw [if_neg hc]
          cases hd : t'.data with
          | nil => simp [pyStartsSlash]
          | cons c0 rest =>
            rw [hd] at hshape
            by_cases hc0 : c0 = '/'
            · subst hc0
              rw [if_neg (by simp [pyStartsSlash])]
              cases rest with
              | nil => simp [reMatchAux]
              | cons c1 rest' =>
                have hword : isWordChar c1 = false := by
                  simpa [claimShape] using hshape
                simp [reMatchAux, List.takeWhile_cons, hword]
            · simp [pyStartsSlash, hc0]
  · intro db c m cid nm hrow huniq hm
    apply route_ignore_of_not_source
    have hsc : (reloadCache db c).SOURCE_CHATS = get_source_chats db := rfl
    rw [hsc, hm]
    simp only [get_source_chats, List.mem_map, List.mem_filter]
    rintro ⟨r, ⟨hrm, hact⟩, hcid⟩
    rw [huniq r hrm hcid] at hact
    exact absurd hact (by simp)

/-- C8 witness: the four ignore conditions at concrete inputs, including a
message from the deactivated chat of `dbInactive` after a reload. -/
theorem routing_ignores_witness :
    route cacheSeaSky { msgXyz with text := none } = RouteDecision.Ignore ∧
    route cacheSeaSky { msgXyz with text := some "" } = RouteDecision.Ignore ∧
    route cacheSeaSky { msgXyz with chat_id := 5 } = RouteDecision.Ignore ∧
    route cacheSeaSky { msgXyz with text := some "hello" } = RouteDecision.Ignore ∧
    route (reloadCache dbInactive cacheSeaSky) { msgXyz with chat_id := -100 } =
      RouteDecision.Ignore :=
  ⟨routing_ignores_out_of_scope_messages.1 cacheSeaSky _ rfl,
    routing_ignores_out_of_scope_messages.2.1 cacheSeaSky _ rfl,
    routing_ignores_out_of_scope_messages.2.2.1 cacheSeaSky _ (by decide),
    routing_ignores_out_of_scope_messages.2.2.2.1 cacheSeaSky _ "hello" rfl (by decide),
    routing_ignores_out_of_scope_messages.2.2.2.2 dbInactive cacheSeaSky _ "-100"
      (some "Main") (by decide) (by decide) (by decide)⟩

/-- C4: when the (lowercased) leading token of a message that passed the
text/whitelist/shape filters is not a key of the topic map, routing rejects
(never forwards), and the reject text enumerates exactly the known prefixes in
lexicographic (code-point) order — the listed key sequence is sorted and is a
permutation of the topic map's keys — each paired with its topic name whenever
the name map is nonempty. -/
theorem unknown_token_rejected :
    ∀ (c : Cache) (m : Message) (t : String) (w g2 : List Char),
      m.text = some t → t ≠ "" → toString m.chat_id ∈ c.SOURCE_CHATS →
      reMatchAux t.data = some (w, g2) →
      (List.lookup (String.mk (pyLower w)) c.TOPIC_ROUTING).isSome = false →
      route c m = RouteDecision.Reject (rejectText c) ∧
      (pySorted (dictKeys c.TOPIC_ROUTING)).Sorted (fun a b : String => a ≤ b) ∧
      List.Perm (pySorted (dictKeys c.TOPIC_ROUTING)) (dictKeys c.TOPIC_ROUTING) ∧
      (c.TOPIC_NAMES ≠ [] → rejectText c =
        "Такой темы нет, список доступных:\n" ++
          String.intercalate "\n"
            ((pySorted (dictKeys c.TOPIC_ROUTING)).map
              (fun p => "/" ++ p ++ " → " ++ (List.lookup p c.TOPIC_NAMES).getD p))) := by
  intro c m t w g2 htext ht hmem hmatch hlook
  refine ⟨?_, pySorted_sorted _, pySorted_perm _, ?_⟩
  · unfold route
    cases hmt : m.text with
    | none => rw [hmt] at htext; exact absurd htext (by simp)
    | some t' =>
      rw [hmt] at htext
      injection htext with htext
      subst htext
      dsimp only
      rw [if_neg ht, if_neg (not_not_intro hmem),
        if_neg (by rw [reMatchAux_some_shape hmatch]; simp), hmatch]
      unfold routeMatched
      dsimp only
      rw [if_pos hlook]
  · intro hne
    unfold rejectText
    rw [if_pos hne]

/-- C4 witness: with topics `sea -> 300, sky -> 289` and names `Sea`, `Sky`,
routing `"/xyz hi"` rejects with a text in which `"/sea → Sea"` appears before
`"/sky → Sky"`. -/
theorem unknown_token_rejected_witness :
    route cacheSeaSky msgXyz = RouteDecision.Reject (rejectText cacheSeaSky) ∧
    rejectText cacheSeaSky =
      "Такой темы нет, список доступных:\n" ++ "/sea → Sea" ++ "\n" ++ "/sky → Sky" ++ "" :=
  ⟨(unknown_token_rejected cacheSeaSky msgXyz "/xyz hi" "xyz".data "hi".data rfl
      (by decide) (by decide) (by decide) (by decide)).1,
    by decide⟩

/-- C9: routing is invariant under the letter case of the leading token — for
every cache, message and case-equivalent word-character tokens `w₁`, `w₂`
followed by the same remainder (not starting with a word character), the two
messages produce identical decisions. -/
theorem routing_case_invariant :
    ∀ (c : Cache) (m : Message) (w₁ w₂ r : List Char),
      w₁ ≠ [] →
      (∀ ch ∈ w₁, isWordChar ch = true) →
      (∀ ch ∈ w₂, isWordChar ch = true) →
      pyLower w₁ = pyLower w₂ →
      (∀ ch, r.head? = some ch → isWordChar ch = false) →
      route c { m with text := some (String.mk ('/' :: (w₁ ++ r))) } =
        route c { m with text := some (String.mk ('/' :: (w₂ ++ r))) } := by
  intro c m w₁ w₂ r hne1 hw1 hw2 hcase hr
  have hne2 : w₂ ≠ [] := by
    intro h
    apply hne1
    have h2 : pyLower w₁ = [] := by rw [hcase, h]; rfl
    simpa [pyLower] using h2
  have hm1 := reMatchAux_token w₁ r hne1 hw1 hr
  have hm2 := reMatchAux_token w₂ r hne2 hw2 hr
  unfold route
  dsimp only
  rw [if_neg (mkSlash_ne_empty _), if_neg (mkSlash_ne_empty _)]
  by_cases hc : toString m.chat_id ∉ c.SOURCE_CHATS
  · rw [if_pos hc, if_pos hc]
  · rw [if_neg hc, if_neg hc,
      if_neg (by simp [pyStartsSlash]), if_neg (by simp [pyStartsSlash]), hm1, hm2]
    cases hmt : matchTailGo r (wsLen r) with
    | none => rfl
    | some mm =>
      dsimp only
      rw [hcase]

/-- C9 witness: `"/SKY hi"` and `"/sky hi"` route identically on the concrete
snapshot (both forward to topic 289). -/
theorem routing_case_invariant_witness :
    route cacheSeaSky { msgXyz with text := some (String.mk ('/' :: ("SKY".data ++ " hi".data))) } =
      route cacheSeaSky
        { msgXyz with text := some (String.mk ('/' :: ("sky".data ++ " hi".data))) } ∧
    String.mk ('/' :: ("SKY".data ++ " hi".data)) = "/SKY hi" ∧
    route cacheSeaSky { msgXyz with text := some "/sky hi" } =
      RouteDecision.Forward (some "-200") (some 289)
        "hi\nОтправил: Неизвестный (нет username)" :=
  ⟨routing_case_invariant cacheSeaSky msgXyz "SKY".data "sky".data " hi".data
      (by decide) (by decide) (by decide) (by decide) (by decide),
    by decide, by decide⟩

theorem lookup_isSome_iff_mem_dictKeys {α : Type} (d : List (String × α)) (k : String) :
    (List.lookup k d).isSome = true ↔ k ∈ dictKeys d := by
  induction d with
  | nil => simp [dictKeys]
  | cons p d ih =>
    obtain ⟨k', v⟩ := p
    by_cases h : k = k'
    · subst h
      simp [List.lookup, dictKeys]
    · have hbeq : (k == k') = false := by simp [h]
      simp only [List.lookup, hbeq, dictKeys, List.map_cons, List.mem_cons]
      rw [ih]
      simp [dictKeys, h]

theorem mem_dictKeys_pyDictInsert {α : Type} (d : List (String × α)) (k k' : String) (v : α)
    (h : k' = k ∨ k' ∈ dictKeys d) : k' ∈ dictKeys (pyDictInsert d k v) := by
  unfold pyDictInsert
  split
  · next hany =>
    have hkeys : dictKeys (d.map fun p => if p.1 == k then (k, v) else p) = dictKeys d := by
      unfold dictKeys
      rw [List.map_map]
      apply List.map_congr_left
      intro p hp
      by_cases hpk : (p.1 == k) = true
      · simp only [Function.comp_apply, hpk, if_true]
        exact (beq_iff_eq.mp hpk).symm
      · have hne : p.1 ≠ k := by simpa using hpk
        simp [Function.comp_apply, hne]
    rw [hkeys]
    rcases h with h | h
    · subst h
      rw [List.any_eq_true] at hany
      rcases hany with ⟨p, hp, hpk⟩
      simp only [dictKeys, List.mem_map]
      exact ⟨p, hp, beq_iff_eq.mp hpk⟩
    · exact h
  · rcases h with h | h
    · subst h
      simp [dictKeys]
    · simp only [dictKeys, List.mem_map] at h ⊢
      rcases h with ⟨p, hp, hpk⟩
      exact ⟨p, by simp [hp], hpk⟩

theorem mem_dictKeys_topics_foldl (rows : List TopicRow) (k : String) :
    ∀ d : List (String × Int),
      (k ∈ dictKeys d ∨ ∃ row ∈ rows, String.mk (pyLower row.pfx.data) = k) →
      k ∈ dictKeys (rows.foldl
        (fun d r => pyDictInsert d (String.mk (pyLower r.pfx.data)) r.topic_id) d) := by
  induction rows with
  | nil =>
    intro d h
    rcases h with h | ⟨row, hrow, _⟩
    · exact h
    · simp at hrow
  | cons r rows ih =>
    intro d h
    rw [List.foldl_cons]
    rcases h with h | ⟨row, hrow, hk⟩
    · exact ih _ (Or.inl (mem_dictKeys_pyDictInsert _ _ _ _ (Or.inr h)))
    · rcases List.mem_cons.mp hrow with hreq | hmem'
      · subst hreq
        exact ih _ (Or.inl (mem_dictKeys_pyDictInsert _ _ _ _ (Or.inl hk.symm)))
      · exact ih _ (Or.inr ⟨row, hmem', hk⟩)

theorem orderedInsertRow_perm (a : TopicRow) :
    ∀ l : List TopicRow, List.Perm (orderedInsertRow a l) (a :: l) := by
  intro l
  induction l with
  | nil => exact List.Perm.refl _
  | cons b l ih =>
    by_cases h : pyStrLe a.pfx b.pfx = true
    · simp only [orderedInsertRow, h, if_true]
      exact List.Perm.refl _
    · simp only [orderedInsertRow, h, Bool.false_eq_true, if_false]
      exact List.Perm.trans (List.Perm.cons b ih) (List.Perm.swap a b l)

theorem sortTopicRows_perm : ∀ l : List TopicRow, List.Perm (sortTopicRows l) l := by
  intro l
  induction l with
  | nil => exact List.Perm.refl _
  | cons a l ih =>
    exact List.Perm.trans (orderedInsertRow_perm a (sortTopicRows l)) (List.Perm.cons a ih)

/-- C10: prefixes are lowercased only on the read path — for a topic stored
with an uppercase letter in its prefix (and no separately stored lowercase
twin), the read map `get_topics` exposes it under the lowercase key, yet
deleting or editing by that displayed lowercase prefix matches the stored
string exactly, so both report failure and leave the store unchanged. -/
theorem lowercase_read_exact_write_mismatch :
    ∀ (db : DbState) (row : TopicRow) (name' : String) (tid' : Int),
      row ∈ db.topics →
      String.mk (pyLower row.pfx.data) ≠ row.pfx →
      (∀ r ∈ db.topics, r.pfx ≠ String.mk (pyLower row.pfx.data)) →
      (List.lookup (String.mk (pyLower row.pfx.data)) (get_topics db)).isSome = true ∧
      delete_topic db (String.mk (pyLower row.pfx.data)) = (db, false) ∧
      update_topic db (String.mk (pyLower row.pfx.data)) name' tid' = (db, false) := by
  intro db row name' tid' hmem hupper hnolower
  refine ⟨?_, ?_, ?_⟩
  · rw [lookup_isSome_iff_mem_dictKeys]
    unfold get_topics
    apply mem_dictKeys_topics_foldl
    right
    exact ⟨row, (sortTopicRows_perm db.topics).mem_iff.mpr hmem, rfl⟩
  · unfold delete_topic
    have hfil : db.topics.filter
        (fun r => !(r.pfx == String.mk (pyLower row.pfx.data))) = db.topics := by
      apply filter_eq_self_of_none
      intro r hr
      simp [hnolower r hr]
    have hcnt : db.topics.filter
        (fun r => r.pfx == String.mk (pyLower row.pfx.data)) = [] := by
      rw [List.filter_eq_nil_iff]
      intro r hr
      simp [hnolower r hr]
    rw [hfil, hcnt]
    simp
  · unfold update_topic
    have hmap : db.topics.map
        (fun r => if r.pfx == String.mk (pyLower row.pfx.data)
          then ⟨String.mk (pyLower row.pfx.data), name', tid'⟩ else r) = db.topics := by
      apply map_eq_self_of_fix
      intro r hr
      simp [hnolower r hr]
    have hcnt : db.topics.filter
        (fun r => r.pfx == String.mk (pyLower row.pfx.data)) = [] := by
      rw [List.filter_eq_nil_iff]
      intro r hr
      simp [hnolower r hr]
    rw [hmap, hcnt]
    simp

/-- C10 witness: the store holding only `Sky` lists key `sky` in the read
map, while deleting or editing `sky` fails and changes nothing — including
through the delete wizard invoked with `"/sky"`. -/
theorem lowercase_read_exact_write_mismatch_witness :
    (List.lookup "sky" (get_topics dbSkyUpper)).isSome = true ∧
    delete_topic dbSkyUpper "sky" = (dbSkyUpper, false) ∧
    update_topic dbSkyUpper "sky" "N" 1 = (dbSkyUpper, false) ∧
    process_delete_topic dbSkyUpper "/sky" =
      ⟨dbSkyUpper, AdminState.TOPICS_MENU, [Ev.dbWrite, Ev.replyFail, Ev.menu]⟩ := by
  obtain ⟨h1, h2, h3⟩ := lowercase_read_exact_write_mismatch dbSkyUpper
    ⟨"Sky", "Sky name", 289⟩ "N" 1 (by decide) (by decide) (by decide)
  exact ⟨h1, h2, h3, by decide⟩
